import Mathlib

/-!
Verification of the ML anomaly-detection handler
(src/packages/ml-anomaly/ml_anomaly/handler.py).

Numeric values (amounts, balances, scores) are modelled as rationals.
The external collaborators — DynamoDB, sklearn's IsolationForest for
batches of at least 10 rows, the wall clock and the uuid generator —
are modelled as explicit oracles in an `Env`; the DynamoDB state that
the handler can observe or mutate (per-account stale flags, the log of
per-transaction risk updates, the log of saved anomaly records) is
threaded explicitly as a `DBState`.
-/

namespace MLAnomaly

/-- A transaction record as read from the transactions table.
`timestamp` is the already-parsed `(hour, weekday)` pair of the UTC
timestamp; `none` models an unparsable timestamp field (in the source,
`datetime.fromisoformat` raising inside `extract_features`). -/
structure Transaction where
  transactionId : String
  accountId : String
  amount : ℚ
  balanceAfter : ℚ
  transactionType : String
  timestamp : Option (Nat × Nat)
deriving DecidableEq, Repr

/-- Handler lines 67-70: balance before the transaction.  The source
first computes `balanceAfter - amount` and then overwrites it with
`balanceAfter + amount` for the three debit types. -/
def balance_before (txn : Transaction) : ℚ :=
  if txn.transactionType ∈ ["WITHDRAWAL", "PURCHASE", "PAYMENT"] then
    txn.balanceAfter + txn.amount
  else
    txn.balanceAfter - txn.amount

/-- Handler `_calculate_velocity`: count of transactions in the batch
with the same accountId as the current transaction, capped at 10
(the `current_time` argument of the source is unused). -/
def calculate_velocity (transactions : List Transaction) (accId : String) : Nat :=
  min (transactions.filter (fun t => t.accountId == accId)).length 10

/-- One row of the feature matrix built by `extract_features`:
[amount, hourOfDay, dayOfWeek, balanceBefore, transactionVelocity].
An unparsable timestamp raises (modelled as `.error`). -/
def extract_row (transactions : List Transaction) (txn : Transaction) :
    Except String (List ℚ) :=
  match txn.timestamp with
  | none => .error "invalid timestamp"
  | some hw =>
      .ok [txn.amount, (hw.1 : ℚ), (hw.2 : ℚ), balance_before txn,
           (calculate_velocity transactions txn.accountId : ℚ)]

/-- Recursive worker for `extract_features`: the source loop raises at
the first failing transaction, so extraction of the whole batch aborts
on the first bad row. -/
def extract_features_go (all : List Transaction) :
    List Transaction → Except String (List (List ℚ))
  | [] => .ok []
  | t :: rest =>
    match extract_row all t with
    | .error e => .error e
    | .ok row =>
      match extract_features_go all rest with
      | .error e => .error e
      | .ok rows => .ok (row :: rows)

/-- Handler `extract_features`: per-transaction rows; empty input
yields the empty (0 x 5) matrix, not an error. -/
def extract_features (transactions : List Transaction) :
    Except String (List (List ℚ)) :=
  extract_features_go transactions transactions

/-- Handler `train_and_predict` (lines 122-154).  For fewer than 10
samples, fitting is skipped entirely: all predictions are 1 (NORMAL;
the anomaly test downstream is `prediction == -1`) and all raw scores
are 0.  Otherwise the scaler + IsolationForest path runs; that path is
external numerical code and is modelled by the `fitModel` oracle
(which may raise, modelling a ModelFitError). -/
def train_and_predict (fitModel : List (List ℚ) → Except String (List Int × List ℚ))
    (features : List (List ℚ)) : Except String (List Int × List ℚ) :=
  if features.length < 10 then
    .ok (List.replicate features.length 1, List.replicate features.length 0)
  else
    fitModel features

/-- `np.min` over a nonempty list given as head and tail. -/
def listMin (x : ℚ) (xs : List ℚ) : ℚ := xs.foldl min x

/-- `np.max` over a nonempty list given as head and tail. -/
def listMax (x : ℚ) (xs : List ℚ) : ℚ := xs.foldl max x

/-- Handler `normalize_scores` (lines 156-176): inverted min-max
rescale; all-equal input gives 0.5 everywhere (`np.full_like`).  On an
empty input `np.min` raises, modelled as `.error`. -/
def normalize_scores : List ℚ → Except String (List ℚ)
  | [] => .error "zero-size array to reduction operation"
  | x :: xs =>
    if listMax x xs = listMin x xs then
      .ok ((x :: xs).map (fun _ => (1 : ℚ) / 2))
    else
      .ok ((x :: xs).map (fun s => (listMax x xs - s) / (listMax x xs - listMin x xs)))

/-- Handler `get_risk_level` (lines 178-185). -/
def get_risk_level (risk_score : ℚ) : String :=
  if risk_score ≤ 33 / 100 then "LOW"
  else if risk_score ≤ 66 / 100 then "MEDIUM"
  else "HIGH"

/-- Numeric rank of a risk tier, used to state monotonicity. -/
def riskRank (level : String) : Nat :=
  if level = "LOW" then 0 else if level = "MEDIUM" then 1 else 2

/-- An account item returned by the stale-accounts scan. -/
structure Account where
  accountId : String
deriving DecidableEq, Repr

/-- One `update_transaction_risk` write as issued by the orchestrator. -/
structure RiskUpdate where
  transactionId : String
  riskScore : ℚ
  riskLevel : String
  isAnomaly : Bool
deriving DecidableEq, Repr

/-- One `save_anomaly` write.  The generated `anomalyId` (uuid), the
`detectedAt` wall-clock timestamp and the constant `modelVersion` tag
are produced by external collaborators and carry no logic, so they are
not modelled. -/
structure AnomalyRecord where
  transactionId : String
  accountId : String
  riskScore : ℚ
  riskLevel : String
  features : List ℚ
deriving DecidableEq, Repr

/-- The storage state visible to the handler: the per-account stale
flag, and append-only logs of risk-update and anomaly writes. -/
structure DBState where
  staleFlags : String → Bool
  riskUpdates : List RiskUpdate
  anomalies : List AnomalyRecord

/-- The `detail` object of the invocation event. -/
structure EventDetail where
  processStaleAccounts : Option Bool
  forceRetrain : Option Bool
deriving DecidableEq, Repr

/-- An invocation event; only `detail` is read by
`process_anomaly_detection`. -/
structure Event where
  detail : Option EventDetail
deriving DecidableEq, Repr

/-- Source line 309: read `processStaleAccounts` from the event's
`detail` object, defaulting to true when `detail` or the key is absent. -/
def Event.processStaleAccounts (e : Event) : Bool :=
  match e.detail with
  | none => true
  | some d => d.processStaleAccounts.getD true

/-- Oracles for the external collaborators.  `initConfig` models the
environment-variable check in `DynamoDBClient.__init__` (raises
ValueError when a table name is missing); `fitModel` models the
scaler + IsolationForest path of `train_and_predict` for 10 or more
samples; the three `_fault` oracles say whether a given DynamoDB write
raises (and with what message) or succeeds. -/
structure Env where
  initConfig : Except String Unit
  get_stale_accounts : Except String (List Account)
  get_account_transactions : String → Except String (List Transaction)
  fitModel : List (List ℚ) → Except String (List Int × List ℚ)
  update_transaction_risk_fault : String → Option String
  save_anomaly_fault : String → Option String
  clear_stale_flag_fault : String → Option String

/-- `clear_stale_flag`: sets the account's stale flag to false. -/
def clearFlag (st : DBState) (accId : String) : DBState :=
  { st with staleFlags := fun a => if a = accId then false else st.staleFlags a }

/-- Append an `update_transaction_risk` write to the log. -/
def addRiskUpdate (st : DBState) (u : RiskUpdate) : DBState :=
  { st with riskUpdates := st.riskUpdates ++ [u] }

/-- Append a `save_anomaly` write to the log. -/
def addAnomaly (st : DBState) (r : AnomalyRecord) : DBState :=
  { st with anomalies := st.anomalies ++ [r] }

/-- Python `zip` over the three result sequences plus the feature rows
(the source indexes `features_array[i]` at the same position):
truncates at the shortest input, like `zip`. -/
def zip4 : List Transaction → List Int → List ℚ → List (List ℚ) →
    List (Transaction × Int × ℚ × List ℚ)
  | t :: ts, p :: ps, s :: ss, r :: rs => (t, p, s, r) :: zip4 ts ps ss rs
  | _, _, _, _ => []

/-- The inner per-transaction loop of `process_anomaly_detection`
(lines 352-385): for each zipped item, write the risk update (may
raise), and when the prediction is -1 also write an anomaly record
(may raise) and bump the account's anomaly counter.  A raise aborts
the loop, keeping the writes already performed. -/
def processTxns (env : Env) (accId : String) :
    List (Transaction × Int × ℚ × List ℚ) → DBState → Nat →
    DBState × Except String Nat
  | [], st, n => (st, .ok n)
  | (txn, pred, score, row) :: rest, st, n =>
    match env.update_transaction_risk_fault txn.transactionId with
    | some e => (st, .error e)
    | none =>
      let st1 := addRiskUpdate st
        ⟨txn.transactionId, score, get_risk_level score, pred == -1⟩
      if pred == -1 then
        match env.save_anomaly_fault txn.transactionId with
        | some e => (st1, .error e)
        | none =>
          processTxns env accId rest
            (addAnomaly st1 ⟨txn.transactionId, accId, score, get_risk_level score, row⟩)
            (n + 1)
      else
        processTxns env accId rest st1 n

/-- The body of the per-account loop of `process_anomaly_detection`
(lines 333-398): fetch transactions; if fewer than 5, clear the stale
flag and skip; otherwise extract features, train/predict, normalize,
process every transaction, clear the stale flag, and report the
account's anomaly count.  The second component is `.error` exactly
when the account's processing raised (the loop then continues with
the next account); the state component keeps any writes performed
before the raise. -/
def processAccount (env : Env) (st : DBState) (acc : Account) :
    DBState × Except String (Option Nat) :=
  match env.get_account_transactions acc.accountId with
  | .error e => (st, .error e)
  | .ok transactions =>
    if transactions.length < 5 then
      match env.clear_stale_flag_fault acc.accountId with
      | some e => (st, .error e)
      | none => (clearFlag st acc.accountId, .ok none)
    else
      match extract_features transactions with
      | .error e => (st, .error e)
      | .ok features_array =>
        match train_and_predict env.fitModel features_array with
        | .error e => (st, .error e)
        | .ok pr =>
          match normalize_scores pr.2 with
          | .error e => (st, .error e)
          | .ok normalized_scores =>
            match processTxns env acc.accountId
                (zip4 transactions pr.1 normalized_scores features_array) st 0 with
            | (st1, .error e) => (st1, .error e)
            | (st1, .ok n) =>
              match env.clear_stale_flag_fault acc.accountId with
              | some e => (st1, .error e)
              | none => (clearFlag st1 acc.accountId, .ok (some n))

/-- The per-account loop with its two counters: a successful account
bumps `processed_accounts` and adds its anomaly count; a skipped
account (under 5 transactions) and a failed account both just move on
to the next account. -/
def processLoop (env : Env) :
    List Account → DBState → Nat → Nat → DBState × Nat × Nat
  | [], st, p, t => (st, p, t)
  | acc :: rest, st, p, t =>
    match (processAccount env st acc).2 with
    | .ok (some n) => processLoop env rest (processAccount env st acc).1 (p + 1) (t + n)
    | .ok none => processLoop env rest (processAccount env st acc).1 p t
    | .error _ => processLoop env rest (processAccount env st acc).1 p t

/-- The invocation result of `process_anomaly_detection`; the two
count fields are only present on the full-completion path (the source
returns dicts without those keys on the two skip paths).  The
`timestamp` field of the source result is wall-clock output and is
not modelled. -/
structure BatchResult where
  statusCode : Nat
  message : String
  processedAccounts : Option Nat
  totalAnomalies : Option Nat
deriving DecidableEq, Repr

/-- Handler `process_anomaly_detection` (lines 296-413): client
initialization (config check) first, then the processStaleAccounts
gate, then stale-account enumeration (whose failure propagates), then
the per-account loop.  The outer `except` re-raises, so a pre-loop
failure surfaces as `.error` with the state unchanged. -/
def process_anomaly_detection (env : Env) (event : Event) (st : DBState) :
    DBState × Except String BatchResult :=
  match env.initConfig with
  | .error e => (st, .error e)
  | .ok _ =>
    if Event.processStaleAccounts event = false then
      (st, .ok ⟨200, "Processing skipped", none, none⟩)
    else
      match env.get_stale_accounts with
      | .error e => (st, .error e)
      | .ok stale_accounts =>
        if stale_accounts = [] then
          (st, .ok ⟨200, "No stale accounts to process", none, none⟩)
        else
          ((processLoop env stale_accounts st 0 0).1,
           .ok ⟨200, "Anomaly detection completed",
                some (processLoop env stale_accounts st 0 0).2.1,
                some (processLoop env stale_accounts st 0 0).2.2⟩)

/-- A reference storage state: all flags set, empty write logs. -/
def initState : DBState :=
  { staleFlags := fun _ => true, riskUpdates := [], anomalies := [] }

/-- The outcome of one account's processing.  It depends only on the
oracles, not on the storage state threaded through the loop
(`processAccount_result_const` below), so it is well-defined via the
reference state. -/
def accountOutcome (env : Env) (acc : Account) : Except String (Option Nat) :=
  (processAccount env initState acc).2

/-- Whether the account's processing completed without raising
(either the full path or the under-5-transactions skip). -/
def outcomeOk (env : Env) (acc : Account) : Bool :=
  match accountOutcome env acc with
  | .ok _ => true
  | .error _ => false

/-- Whether the account counts toward `processedAccounts`. -/
def isProcessed (env : Env) (acc : Account) : Bool :=
  match accountOutcome env acc with
  | .ok (some _) => true
  | _ => false

/-- The account's contribution to `totalAnomalies`. -/
def anomCount (env : Env) (acc : Account) : Nat :=
  match accountOutcome env acc with
  | .ok (some n) => n
  | _ => 0

/-- A model oracle that always raises; used in concrete scenarios
whose batches stay under 10 samples, where fitting is never reached. -/
def constFitModel : List (List ℚ) → Except String (List Int × List ℚ) :=
  fun _ => .error "model not reached"

/-- A concrete well-formed deposit transaction. -/
def mkTxn (tid acct : String) : Transaction :=
  { transactionId := tid, accountId := acct, amount := 10, balanceAfter := 100,
    transactionType := "DEPOSIT", timestamp := some (12, 3) }

/-- Five well-formed transactions for one account. -/
def fiveTxns (acct : String) : List Transaction :=
  [mkTxn (acct ++ "-t1") acct, mkTxn (acct ++ "-t2") acct, mkTxn (acct ++ "-t3") acct,
   mkTxn (acct ++ "-t4") acct, mkTxn (acct ++ "-t5") acct]

/-- Three stale accounts for the partial-failure scenario. -/
def threeAccounts : List Account := [⟨"acc1"⟩, ⟨"acc2"⟩, ⟨"acc3"⟩]

/-- Scenario oracles: three stale accounts, the transaction fetch for
acc2 raises, every other operation succeeds. -/
def failFetchEnv : Env :=
  { initConfig := .ok ()
    get_stale_accounts := .ok threeAccounts
    get_account_transactions := fun a =>
      if a = "acc2" then .error "fetch failed" else .ok (fiveTxns a)
    fitModel := constFitModel
    update_transaction_risk_fault := fun _ => none
    save_anomaly_fault := fun _ => none
    clear_stale_flag_fault := fun _ => none }

/-- Scenario oracles: one stale account with a single transaction. -/
def oneTxnEnv : Env :=
  { initConfig := .ok ()
    get_stale_accounts := .ok [⟨"acc1"⟩]
    get_account_transactions := fun _ => .ok [mkTxn "t1" "acc1"]
    fitModel := constFitModel
    update_transaction_risk_fault := fun _ => none
    save_anomaly_fault := fun _ => none
    clear_stale_flag_fault := fun _ => none }

/-- Scenario oracles: one stale account with five transactions. -/
def fiveTxnEnv : Env :=
  { initConfig := .ok ()
    get_stale_accounts := .ok [⟨"acc1"⟩]
    get_account_transactions := fun _ => .ok (fiveTxns "acc1")
    fitModel := constFitModel
    update_transaction_risk_fault := fun _ => none
    save_anomaly_fault := fun _ => none
    clear_stale_flag_fault := fun _ => none }

/-- Scenario oracles: the configuration check itself raises. -/
def badConfigEnv : Env :=
  { initConfig := .error "Missing required environment variables for DynamoDB table names"
    get_stale_accounts := .ok []
    get_account_transactions := fun _ => .ok []
    fitModel := constFitModel
    update_transaction_risk_fault := fun _ => none
    save_anomaly_fault := fun _ => none
    clear_stale_flag_fault := fun _ => none }

/-- Scenario oracles: configuration is fine but the stale-account scan
raises; everything downstream would also raise if it were reached. -/
def badScanEnv : Env :=
  { initConfig := .ok ()
    get_stale_accounts := .error "scan failed"
    get_account_transactions := fun _ => .error "unreached"
    fitModel := constFitModel
    update_transaction_risk_fault := fun _ => some "unreached"
    save_anomaly_fault := fun _ => some "unreached"
    clear_stale_flag_fault := fun _ => some "unreached" }

/-- An event whose detail explicitly disables stale-account processing. -/
def eventDisabled : Event := ⟨some ⟨some false, none⟩⟩

/-- An event with no detail object (all defaults). -/
def eventDefault : Event := ⟨none⟩

/-- The folded minimum is a lower bound: it is at most the seed and at
most every list element. -/
theorem listMin_le_all (xs : List ℚ) : ∀ x : ℚ,
    listMin x xs ≤ x ∧ ∀ s ∈ xs, listMin x xs ≤ s := by
  induction xs with
  | nil => intro x; exact ⟨le_refl x, by simp⟩
  | cons y ys ih =>
    intro x
    have hstep : listMin x (y :: ys) = listMin (min x y) ys := rfl
    constructor
    · rw [hstep]; exact le_trans (ih (min x y)).1 (min_le_left x y)
    · intro s hs
      rw [hstep]
      rcases List.mem_cons.mp hs with h | h
      · subst h; exact le_trans (ih (min x s)).1 (min_le_right x s)
      · exact (ih (min x y)).2 s h

/-- The folded maximum is an upper bound: it is at least the seed and
at least every list element. -/
theorem le_listMax_all (xs : List ℚ) : ∀ x : ℚ,
    x ≤ listMax x xs ∧ ∀ s ∈ xs, s ≤ listMax x xs := by
  induction xs with
  | nil => intro x; exact ⟨le_refl x, by simp⟩
  | cons y ys ih =>
    intro x
    have hstep : listMax x (y :: ys) = listMax (max x y) ys := rfl
    constructor
    · rw [hstep]; exact le_trans (le_max_left x y) (ih (max x y)).1
    · intro s hs
      rw [hstep]
      rcases List.mem_cons.mp hs with h | h
      · subst h; exact le_trans (le_max_right x s) (ih (max x s)).1
      · exact (ih (max x y)).2 s h

/-- The minimum of a nonempty list is at most any of its members. -/
theorem listMin_le_mem (x : ℚ) (xs : List ℚ) (s : ℚ) (hs : s ∈ x :: xs) :
    listMin x xs ≤ s := by
  rcases List.mem_cons.mp hs with h | h
  · subst h; exact (listMin_le_all xs s).1
  · exact (listMin_le_all xs x).2 s h

/-- Any member of a nonempty list is at most its maximum. -/
theorem mem_le_listMax (x : ℚ) (xs : List ℚ) (s : ℚ) (hs : s ∈ x :: xs) :
    s ≤ listMax x xs := by
  rcases List.mem_cons.mp hs with h | h
  · subst h; exact (le_listMax_all xs s).1
  · exact (le_listMax_all xs x).2 s h

/-- The minimum of a nonempty list is at most its maximum. -/
theorem listMin_le_listMax (x : ℚ) (xs : List ℚ) : listMin x xs ≤ listMax x xs :=
  le_trans (listMin_le_mem x xs x (List.mem_cons_self x xs))
    (mem_le_listMax x xs x (List.mem_cons_self x xs))

/-- Claim C2: on a nonempty score list, `normalize_scores` maps each
raw score s to (max - s) / (max - min); every such value lies in
[0, 1], the minimum raw score maps to 1 and the maximum to 0; when all
raw scores are equal every normalized score is 1/2 instead of an
error; and concretely [-1/2, 0, 1/2] normalizes to [1, 1/2, 0]. -/
theorem c2_normalize_scores :
    (∀ (x : ℚ) (xs : List ℚ),
      (listMax x xs ≠ listMin x xs →
        normalize_scores (x :: xs)
            = .ok ((x :: xs).map (fun s =>
                (listMax x xs - s) / (listMax x xs - listMin x xs)))
        ∧ ∀ s ∈ x :: xs,
            0 ≤ (listMax x xs - s) / (listMax x xs - listMin x xs)
            ∧ (listMax x xs - s) / (listMax x xs - listMin x xs) ≤ 1
            ∧ (s = listMin x xs →
                (listMax x xs - s) / (listMax x xs - listMin x xs) = 1)
            ∧ (s = listMax x xs →
                (listMax x xs - s) / (listMax x xs - listMin x xs) = 0))
      ∧ (listMax x xs = listMin x xs →
          normalize_scores (x :: xs) = .ok ((x :: xs).map (fun _ => (1 : ℚ) / 2))))
    ∧ normalize_scores [-(1 : ℚ) / 2, 0, 1 / 2] = .ok [1, 1 / 2, 0] := by
  constructor
  · intro x xs
    constructor
    · intro hne
      have hlt : listMin x xs < listMax x xs :=
        lt_of_le_of_ne (listMin_le_listMax x xs) (Ne.symm hne)
      have hpos : 0 < listMax x xs - listMin x xs := by linarith
      constructor
      · simp only [normalize_scores]; rw [if_neg hne]
      · intro s hs
        have h1 : listMin x xs ≤ s := listMin_le_mem x xs s hs
        have h2 : s ≤ listMax x xs := mem_le_listMax x xs s hs
        refine ⟨div_nonneg (by linarith) (le_of_lt hpos),
               (div_le_one hpos).mpr (by linarith), ?_, ?_⟩
        · intro h; rw [h]; exact div_self (ne_of_gt hpos)
        · intro h; rw [h, sub_self, zero_div]
    · intro heq
      simp only [normalize_scores]; rw [if_pos heq]
  · norm_num [normalize_scores, listMin, listMax, min_def, max_def]

/-- Witness for C2 at the concrete input [1, 3]. -/
theorem c2_witness : normalize_scores [(1 : ℚ), 3] = .ok [1, 0] := by
  have h := (c2_normalize_scores.1 1 [3]).1
    (by norm_num [listMin, listMax, min_def, max_def])
  exact h.1.trans (by norm_num [listMin, listMax, min_def, max_def])

/-- Claim C3: risk tiering is total, deterministic and monotone:
scores at most 0.33 tier to LOW, scores in (0.33, 0.66] to MEDIUM,
scores above 0.66 to HIGH; boundary-exact at 0.33 / 0.330001 / 0.66 /
0.660001; and a larger score never gets a strictly lower tier.
Totality and determinism hold because `get_risk_level` is a function. -/
theorem c3_risk_tiering :
    (∀ s : ℚ,
      (s ≤ 33 / 100 → get_risk_level s = "LOW")
      ∧ (33 / 100 < s → s ≤ 66 / 100 → get_risk_level s = "MEDIUM")
      ∧ (66 / 100 < s → get_risk_level s = "HIGH"))
    ∧ get_risk_level (33 / 100) = "LOW"
    ∧ get_risk_level (330001 / 1000000) = "MEDIUM"
    ∧ get_risk_level (66 / 100) = "MEDIUM"
    ∧ get_risk_level (660001 / 1000000) = "HIGH"
    ∧ ∀ s t : ℚ, s ≤ t →
        riskRank (get_risk_level s) ≤ riskRank (get_risk_level t) := by
  refine ⟨?_, by norm_num [get_risk_level], by norm_num [get_risk_level],
         by norm_num [get_risk_level], by norm_num [get_risk_level], ?_⟩
  · intro s
    refine ⟨fun h => ?_, fun h1 h2 => ?_, fun h => ?_⟩
    · unfold get_risk_level; rw [if_pos h]
    · unfold get_risk_level; rw [if_neg (by linarith), if_pos h2]
    · unfold get_risk_level; rw [if_neg (by linarith), if_neg (by linarith)]
  · intro s t hst
    unfold get_risk_level
    split_ifs <;> first | decide | (exfalso; linarith)

/-- Witness for C3 at concrete scores 1/4 and 3/4. -/
theorem c3_witness :
    get_risk_level (1 / 4 : ℚ) = "LOW"
    ∧ riskRank (get_risk_level (1 / 4 : ℚ)) ≤ riskRank (get_risk_level (3 / 4 : ℚ)) :=
  ⟨(c3_risk_tiering.1 (1 / 4)).1 (by norm_num),
   c3_risk_tiering.2.2.2.2.2 (1 / 4) (3 / 4) (by norm_num)⟩

/-- Claim C4: feature extraction derives balanceBefore as
balanceAfter + amount for the debit types WITHDRAWAL, PURCHASE and
PAYMENT, and balanceAfter - amount for every other type (DEPOSIT and
the rest); the extracted feature row carries exactly this value; and
concretely a WITHDRAWAL of 50 with balanceAfter 200 gives 250 while a
DEPOSIT of 50 with balanceAfter 200 gives 150. -/
theorem c4_balance_before :
    (∀ txn : Transaction,
      (txn.transactionType ∈ ["WITHDRAWAL", "PURCHASE", "PAYMENT"] →
        balance_before txn = txn.balanceAfter + txn.amount)
      ∧ (txn.transactionType ∉ ["WITHDRAWAL", "PURCHASE", "PAYMENT"] →
        balance_before txn = txn.balanceAfter - txn.amount))
    ∧ (∀ (transactions : List Transaction) (txn : Transaction) (hw : Nat × Nat),
        txn.timestamp = some hw →
        extract_row transactions txn
          = .ok [txn.amount, (hw.1 : ℚ), (hw.2 : ℚ), balance_before txn,
                 (calculate_velocity transactions txn.accountId : ℚ)])
    ∧ balance_before ⟨"w1", "a1", 50, 200, "WITHDRAWAL", some (0, 0)⟩ = 250
    ∧ balance_before ⟨"d1", "a1", 50, 200, "DEPOSIT", some (0, 0)⟩ = 150 := by
  refine ⟨?_, ?_, by norm_num [balance_before],
         by unfold balance_before; rw [if_neg (by decide)]; norm_num⟩
  · intro txn
    constructor
    · intro h; unfold balance_before; rw [if_pos h]
    · intro h; unfold balance_before; rw [if_neg h]
  · intro transactions txn hw h
    simp only [extract_row, h]

/-- Witness for C4 at a concrete PAYMENT transaction. -/
theorem c4_witness :
    balance_before ⟨"p1", "a1", 5, 20, "PAYMENT", some (1, 1)⟩ = 25
    ∧ extract_row [] ⟨"p1", "a1", 5, 20, "PAYMENT", some (1, 1)⟩
        = .ok [5, 1, 1, 25, 0] := by
  have h1 := (c4_balance_before.1 ⟨"p1", "a1", 5, 20, "PAYMENT", some (1, 1)⟩).1 (by decide)
  have h2 := c4_balance_before.2.1 [] ⟨"p1", "a1", 5, 20, "PAYMENT", some (1, 1)⟩ (1, 1) rfl
  exact ⟨h1.trans (by norm_num),
         h2.trans (by norm_num [balance_before, calculate_velocity, List.filter])⟩

/-- Claim C5: for a feature matrix with fewer than 10 rows,
`train_and_predict` skips fitting entirely (the result is the same for
every model oracle) and returns one NORMAL prediction (the value 1;
anomaly would be -1) per row and one raw score 0 per row. -/
theorem c5_small_sample_skip
    (fitModel : List (List ℚ) → Except String (List Int × List ℚ))
    (features : List (List ℚ)) (h : features.length < 10) :
    train_and_predict fitModel features
      = .ok (List.replicate features.length 1, List.replicate features.length 0) := by
  unfold train_and_predict
  rw [if_pos h]

/-- Witness for C5 at a one-row matrix with the always-raising oracle. -/
theorem c5_witness :
    train_and_predict constFitModel [[1, 2, 3, 4, 5]] = .ok ([1], [0]) :=
  (c5_small_sample_skip constFitModel [[1, 2, 3, 4, 5]] (by norm_num)).trans (by simp)

/-- The inner transaction loop never touches the stale flags. -/
theorem processTxns_staleFlags (env : Env) (accId : String) :
    ∀ (items : List (Transaction × Int × ℚ × List ℚ)) (st : DBState) (n : Nat),
      ((processTxns env accId items st n).1).staleFlags = st.staleFlags := by
  intro items
  induction items with
  | nil => intro st n; rfl
  | cons it rest ih =>
    intro st n
    obtain ⟨txn, pred, score, row⟩ := it
    cases hu : env.update_transaction_risk_fault txn.transactionId with
    | some e => simp [processTxns, hu]
    | none =>
      cases hb : (pred == -1) with
      | true =>
        cases hs : env.save_anomaly_fault txn.transactionId with
        | some e => simp [processTxns, hu, hb, hs, addRiskUpdate]
        | none => simp [processTxns, hu, hb, hs, ih, addRiskUpdate, addAnomaly]
      | false => simp [processTxns, hu, hb, ih, addRiskUpdate]

/-- The outcome of the inner transaction loop (raise or final count)
does not depend on the storage state it is applied to. -/
theorem processTxns_result_const (env : Env) (accId : String) :
    ∀ (items : List (Transaction × Int × ℚ × List ℚ)) (st st' : DBState) (n : Nat),
      (processTxns env accId items st n).2 = (processTxns env accId items st' n).2 := by
  intro items
  induction items with
  | nil => intro st st' n; rfl
  | cons it rest ih =>
    intro st st' n
    obtain ⟨txn, pred, score, row⟩ := it
    cases hu : env.update_transaction_risk_fault txn.transactionId with
    | some e => simp [processTxns, hu]
    | none =>
      cases hb : (pred == -1) with
      | true =>
        cases hs : env.save_anomaly_fault txn.transactionId with
        | some e => simp [processTxns, hu, hb, hs]
        | none => simp [processTxns, hu, hb, hs]; exact ih _ _ _
      | false =>
        simp [processTxns, hu, hb]
        exact ih _ _ _

/-- The outcome of one account's processing (raise, skip, or count)
does not depend on the storage state it is applied to. -/
theorem processAccount_result_const (env : Env) (acc : Account) (st st' : DBState) :
    (processAccount env st acc).2 = (processAccount env st' acc).2 := by
  unfold processAccount
  cases env.get_account_transactions acc.accountId with
  | error e => rfl
  | ok transactions =>
    dsimp only
    by_cases h5 : transactions.length < 5
    · simp only [if_pos h5]
      cases env.clear_stale_flag_fault acc.accountId with
      | some e => rfl
      | none => rfl
    · simp only [if_neg h5]
      cases extract_features transactions with
      | error e => rfl
      | ok features_array =>
        dsimp only
        cases train_and_predict env.fitModel features_array with
        | error e => rfl
        | ok pr =>
          dsimp only
          cases normalize_scores pr.2 with
          | error e => rfl
          | ok normalized_scores =>
            dsimp only
            have hr := processTxns_result_const env acc.accountId
              (zip4 transactions pr.1 normalized_scores features_array) st st' 0
            cases hA : processTxns env acc.accountId
                (zip4 transactions pr.1 normalized_scores features_array) st 0 with
            | mk st1 r1 =>
              cases hB : processTxns env acc.accountId
                  (zip4 transactions pr.1 normalized_scores features_array) st' 0 with
              | mk st2 r2 =>
                rw [hA, hB] at hr
                simp only at hr
                subst hr
                cases r1 with
                | error e1 => rfl
                | ok n1 =>
                  dsimp only
                  cases env.clear_stale_flag_fault acc.accountId with
                  | some e => rfl
                  | none => rfl

/-- How one account's processing transforms the stale flags: on a
raise they are untouched; on success exactly this account's flag is
cleared. -/
theorem processAccount_staleFlags (env : Env) (st : DBState) (acc : Account) :
    (processAccount env st acc).1.staleFlags =
      (match (processAccount env st acc).2 with
       | .ok _ => (clearFlag st acc.accountId).staleFlags
       | .error _ => st.staleFlags) := by
  unfold processAccount
  cases env.get_account_transactions acc.accountId with
  | error e => rfl
  | ok transactions =>
    dsimp only
    by_cases h5 : transactions.length < 5
    · simp only [if_pos h5]
      cases env.clear_stale_flag_fault acc.accountId with
      | some e => rfl
      | none => rfl
    · simp only [if_neg h5]
      cases extract_features transactions with
      | error e => rfl
      | ok features_array =>
        dsimp only
        cases train_and_predict env.fitModel features_array with
        | error e => rfl
        | ok pr =>
          dsimp only
          cases normalize_scores pr.2 with
          | error e => rfl
          | ok normalized_scores =>
            dsimp only
            have hfl := processTxns_staleFlags env acc.accountId
              (zip4 transactions pr.1 normalized_scores features_array) st 0
            cases hA : processTxns env acc.accountId
                (zip4 transactions pr.1 normalized_scores features_array) st 0 with
            | mk st1 r1 =>
              rw [hA] at hfl
              simp only at hfl
              cases r1 with
              | error e1 => simpa using hfl
              | ok n1 =>
                cases env.clear_stale_flag_fault acc.accountId with
                | some e => simpa using hfl
                | none =>
                  simp only [clearFlag]
                  funext a
                  by_cases ha : a = acc.accountId
                  · simp [ha]
                  · simp [ha, hfl]

/-- On a raise, one account's processing leaves every stale flag
unchanged (the clear step is only reached on the success paths). -/
theorem processAccount_flags_error (env : Env) (st : DBState) (acc : Account)
    (e : String) (h : (processAccount env st acc).2 = .error e) :
    (processAccount env st acc).1.staleFlags = st.staleFlags := by
  have hm := processAccount_staleFlags env st acc
  rw [h] at hm
  dsimp only at hm
  exact hm

/-- On success (full processing or skip), one account's processing
clears exactly its own stale flag. -/
theorem processAccount_flags_ok (env : Env) (st : DBState) (acc : Account)
    (r : Option Nat) (h : (processAccount env st acc).2 = .ok r) :
    (processAccount env st acc).1.staleFlags = (clearFlag st acc.accountId).staleFlags := by
  have hm := processAccount_staleFlags env st acc
  rw [h] at hm
  dsimp only at hm
  exact hm

/-- Processing one account never touches another account's flag. -/
theorem processAccount_flags_other (env : Env) (st : DBState) (acc : Account)
    (x : String) (hx : x ≠ acc.accountId) :
    (processAccount env st acc).1.staleFlags x = st.staleFlags x := by
  have hm := congrFun (processAccount_staleFlags env st acc) x
  cases h2 : (processAccount env st acc).2 with
  | error e => rw [h2] at hm; dsimp only at hm; exact hm
  | ok r =>
    rw [h2] at hm
    dsimp only at hm
    simp only [clearFlag] at hm
    rw [hm, if_neg hx]

/-- A cleared flag stays cleared through one account's processing. -/
theorem processAccount_flags_false (env : Env) (st : DBState) (acc : Account)
    (x : String) (hx : st.staleFlags x = false) :
    (processAccount env st acc).1.staleFlags x = false := by
  have hm := congrFun (processAccount_staleFlags env st acc) x
  cases h2 : (processAccount env st acc).2 with
  | error e => rw [h2] at hm; dsimp only at hm; rw [hm, hx]
  | ok r =>
    rw [h2] at hm
    dsimp only at hm
    simp only [clearFlag] at hm
    rw [hm]
    by_cases hxa : x = acc.accountId
    · rw [if_pos hxa]
    · rw [if_neg hxa, hx]

/-- The loop counters: `processedAccounts` counts exactly the accounts
whose outcome is a completed run, and `totalAnomalies` is the sum of
the completed accounts' anomaly counts. -/
theorem processLoop_counts (env : Env) :
    ∀ (accounts : List Account) (st : DBState) (p t : Nat),
      (processLoop env accounts st p t).2.1
          = p + (accounts.filter (fun a => isProcessed env a)).length
      ∧ (processLoop env accounts st p t).2.2
          = t + (accounts.map (fun a => anomCount env a)).sum := by
  intro accounts
  induction accounts with
  | nil => intro st p t; simp [processLoop]
  | cons acc rest ih =>
    intro st p t
    have hres : (processAccount env st acc).2 = accountOutcome env acc :=
      processAccount_result_const env acc st initState
    simp only [processLoop]
    cases ho : accountOutcome env acc with
    | ok r =>
      cases r with
      | some n =>
        rw [hres, ho]
        dsimp only
        have hip : isProcessed env acc = true := by simp [isProcessed, ho]
        have hac : anomCount env acc = n := by simp [anomCount, ho]
        constructor
        · rw [(ih _ _ _).1, List.filter_cons]
          simp only [hip, if_true, List.length_cons]
          omega
        · rw [(ih _ _ _).2, List.map_cons, List.sum_cons, hac]
          omega
      | none =>
        rw [hres, ho]
        dsimp only
        have hip : isProcessed env acc = false := by simp [isProcessed, ho]
        have hac : anomCount env acc = 0 := by simp [anomCount, ho]
        constructor
        · rw [(ih _ _ _).1, List.filter_cons]
          simp [hip]
        · rw [(ih _ _ _).2, List.map_cons, List.sum_cons, hac]
          omega
    | error e =>
      rw [hres, ho]
      dsimp only
      have hip : isProcessed env acc = false := by simp [isProcessed, ho]
      have hac : anomCount env acc = 0 := by simp [anomCount, ho]
      constructor
      · rw [(ih _ _ _).1, List.filter_cons]
        simp [hip]
      · rw [(ih _ _ _).2, List.map_cons, List.sum_cons, hac]
        omega

/-- When every account in the list that carries a given accountId
fails, that accountId's flag is untouched by the whole loop. -/
theorem processLoop_flags_untouched (env : Env) :
    ∀ (accounts : List Account) (st : DBState) (p t : Nat) (x : String),
      (∀ a ∈ accounts, a.accountId = x → outcomeOk env a = false) →
      (processLoop env accounts st p t).1.staleFlags x = st.staleFlags x := by
  intro accounts
  induction accounts with
  | nil => intro st p t x h; rfl
  | cons acc rest ih =>
    intro st p t x h
    have hres : (processAccount env st acc).2 = accountOutcome env acc :=
      processAccount_result_const env acc st initState
    have htail : ∀ a ∈ rest, a.accountId = x → outcomeOk env a = false :=
      fun a ha => h a (List.mem_cons_of_mem acc ha)
    have hpres : (processAccount env st acc).1.staleFlags x = st.staleFlags x := by
      by_cases hx : x = acc.accountId
      · have hfail : outcomeOk env acc = false :=
          h acc (List.mem_cons_self acc rest) hx.symm
        cases ho : accountOutcome env acc with
        | ok r => rw [outcomeOk, ho] at hfail; exact absurd hfail (by simp)
        | error e =>
          exact congrFun (processAccount_flags_error env st acc e (hres.trans ho)) x
      · exact processAccount_flags_other env st acc x hx
    simp only [processLoop]
    cases ho : accountOutcome env acc with
    | ok r =>
      cases r with
      | some n => rw [hres, ho]; dsimp only; rw [ih _ _ _ x htail, hpres]
      | none => rw [hres, ho]; dsimp only; rw [ih _ _ _ x htail, hpres]
    | error e => rw [hres, ho]; dsimp only; rw [ih _ _ _ x htail, hpres]

/-- A cleared flag stays cleared through the whole loop. -/
theorem processLoop_flags_false_pres (env : Env) :
    ∀ (accounts : List Account) (st : DBState) (p t : Nat) (x : String),
      st.staleFlags x = false →
      (processLoop env accounts st p t).1.staleFlags x = false := by
  intro accounts
  induction accounts with
  | nil => intro st p t x h; exact h
  | cons acc rest ih =>
    intro st p t x h
    have hres : (processAccount env st acc).2 = accountOutcome env acc :=
      processAccount_result_const env acc st initState
    have hpres : (processAccount env st acc).1.staleFlags x = false :=
      processAccount_flags_false env st acc x h
    simp only [processLoop]
    cases ho : accountOutcome env acc with
    | ok r =>
      cases r with
      | some n => rw [hres, ho]; dsimp only; exact ih _ _ _ x hpres
      | none => rw [hres, ho]; dsimp only; exact ih _ _ _ x hpres
    | error e => rw [hres, ho]; dsimp only; exact ih _ _ _ x hpres

/-- Every account of the batch whose own processing completes without
raising exits the loop with its flag cleared. -/
theorem processLoop_flags_cleared (env : Env) :
    ∀ (accounts : List Account) (st : DBState) (p t : Nat) (a : Account),
      a ∈ accounts → outcomeOk env a = true →
      (processLoop env accounts st p t).1.staleFlags a.accountId = false := by
  intro accounts
  induction accounts with
  | nil => intro st p t a ha; exact absurd ha (List.not_mem_nil a)
  | cons acc rest ih =>
    intro st p t a ha hok
    have hres : (processAccount env st acc).2 = accountOutcome env acc :=
      processAccount_result_const env acc st initState
    rcases List.mem_cons.mp ha with heq | hmem
    · subst heq
      cases ho : accountOutcome env a with
      | error e => rw [outcomeOk, ho] at hok; exact absurd hok (by simp)
      | ok r =>
        have hflag : (processAccount env st a).1.staleFlags a.accountId = false := by
          have := congrFun (processAccount_flags_ok env st a r (hres.trans ho)) a.accountId
          rw [this]
          simp [clearFlag]
        simp only [processLoop]
        cases r with
        | some n => rw [hres, ho]; dsimp only; exact processLoop_flags_false_pres env rest _ _ _ _ hflag
        | none => rw [hres, ho]; dsimp only; exact processLoop_flags_false_pres env rest _ _ _ _ hflag
    · simp only [processLoop]
      cases ho : accountOutcome env acc with
      | ok r =>
        cases r with
        | some n => rw [hres, ho]; dsimp only; exact ih _ _ _ a hmem hok
        | none => rw [hres, ho]; dsimp only; exact ih _ _ _ a hmem hok
      | error e => rw [hres, ho]; dsimp only; exact ih _ _ _ a hmem hok

/-- Folding min over a list of zeros from seed zero gives zero. -/
theorem foldl_min_replicate_zero : ∀ m : Nat,
    (List.replicate m (0 : ℚ)).foldl min 0 = 0 := by
  intro m
  induction m with
  | zero => rfl
  | succ k ih => rw [List.replicate_succ, List.foldl_cons, min_self]; exact ih

/-- Folding max over a list of zeros from seed zero gives zero. -/
theorem foldl_max_replicate_zero : ∀ m : Nat,
    (List.replicate m (0 : ℚ)).foldl max 0 = 0 := by
  intro m
  induction m with
  | zero => rfl
  | succ k ih => rw [List.replicate_succ, List.foldl_cons, max_self]; exact ih

/-- Mapping the constant 1/2 gives a replicate of 1/2. -/
theorem map_const_half : ∀ (l : List ℚ),
    l.map (fun _ => (1 : ℚ) / 2) = List.replicate l.length ((1 : ℚ) / 2) := by
  intro l
  induction l with
  | nil => rfl
  | cons a l ih => rw [List.map_cons, List.length_cons, List.replicate_succ, ih]

/-- Normalizing an all-zero nonempty score list hits the degenerate
all-equal branch and yields 1/2 everywhere. -/
theorem normalize_replicate_zero (n : Nat) (hn : n ≠ 0) :
    normalize_scores (List.replicate n (0 : ℚ))
      = .ok (List.replicate n ((1 : ℚ) / 2)) := by
  cases n with
  | zero => exact absurd rfl hn
  | succ m =>
    rw [List.replicate_succ]
    simp only [normalize_scores]
    have hmin : listMin 0 (List.replicate m (0 : ℚ)) = 0 := foldl_min_replicate_zero m
    have hmax : listMax 0 (List.replicate m (0 : ℚ)) = 0 := foldl_max_replicate_zero m
    rw [if_pos (hmax.trans hmin.symm)]
    rw [map_const_half]
    simp

/-- A successful extraction produces one feature row per transaction. -/
theorem extract_features_go_length (all : List Transaction) :
    ∀ (l : List Transaction) (rows : List (List ℚ)),
      extract_features_go all l = .ok rows → rows.length = l.length := by
  intro l
  induction l with
  | nil =>
    intro rows h
    simp only [extract_features_go] at h
    cases h
    rfl
  | cons t rest ih =>
    intro rows h
    simp only [extract_features_go] at h
    cases he : extract_row all t with
    | error e => rw [he] at h; exact absurd h (by simp)
    | ok row =>
      rw [he] at h
      dsimp only at h
      cases hg : extract_features_go all rest with
      | error e => rw [hg] at h; exact absurd h (by simp)
      | ok rows2 =>
        rw [hg] at h
        dsimp only at h
        cases h
        rw [List.length_cons, List.length_cons, ih rows2 hg]

/-- A successful `extract_features` produces one row per transaction. -/
theorem extract_features_length (txns : List Transaction) (rows : List (List ℚ))
    (h : extract_features txns = .ok rows) : rows.length = txns.length :=
  extract_features_go_length txns txns rows h

/-- The inner loop over all-NORMAL predictions with uniform score 1/2
and no write faults: it appends one risk update per transaction
(no anomaly test fires, since the prediction is 1, not -1), saves no
anomaly record, and returns the anomaly counter unchanged. -/
theorem processTxns_all_normal (env : Env) (accId : String) :
    ∀ (txns : List Transaction) (rows : List (List ℚ)) (st : DBState) (n : Nat),
      rows.length = txns.length →
      (∀ t ∈ txns, env.update_transaction_risk_fault t.transactionId = none) →
      processTxns env accId
          (zip4 txns (List.replicate txns.length 1)
            (List.replicate txns.length ((1 : ℚ) / 2)) rows) st n
        = ({ st with riskUpdates := (st.riskUpdates
              ++ txns.map (fun t =>
                  ⟨t.transactionId, 1 / 2, get_risk_level ((1 : ℚ) / 2), false⟩)) },
           .ok n) := by
  intro txns
  induction txns with
  | nil =>
    intro rows st n hlen hf
    simp [zip4, processTxns]
  | cons t ts ih =>
    intro rows st n hlen hf
    cases rows with
    | nil => simp at hlen
    | cons r rs =>
      have hlen2 : rs.length = ts.length := by simpa using hlen
      have hft : env.update_transaction_risk_fault t.transactionId = none :=
        hf t (List.mem_cons_self t ts)
      have hfr : ∀ u ∈ ts, env.update_transaction_risk_fault u.transactionId = none :=
        fun u hu => hf u (List.mem_cons_of_mem t hu)
      rw [List.length_cons, List.replicate_succ, List.replicate_succ]
      simp only [zip4]
      simp only [processTxns, hft]
      rw [if_neg (by decide : ¬ (((1 : Int) == -1) = true))]
      rw [ih rs _ n hlen2 hfr]
      simp [addRiskUpdate, List.append_assoc,
            (by decide : ((1 : Int) == -1) = false)]

/-- One account with between 5 and 9 well-formed transactions and no
write faults: processing completes with zero anomalies, appends one
MEDIUM risk update at score 1/2 per transaction, saves no anomaly
record, and clears the account's flag. -/
theorem processAccount_small_batch (env : Env) (st : DBState) (acc : Account)
    (txns : List Transaction) (rows : List (List ℚ))
    (hf : env.get_account_transactions acc.accountId = .ok txns)
    (h5 : 5 ≤ txns.length) (h9 : txns.length ≤ 9)
    (hext : extract_features txns = .ok rows)
    (hur : ∀ t ∈ txns, env.update_transaction_risk_fault t.transactionId = none)
    (hcf : env.clear_stale_flag_fault acc.accountId = none) :
    processAccount env st acc
      = (clearFlag { st with riskUpdates := (st.riskUpdates
            ++ txns.map (fun t => ⟨t.transactionId, 1 / 2, "MEDIUM", false⟩)) }
          acc.accountId,
         .ok (some 0)) := by
  have hrl : rows.length = txns.length := extract_features_length txns rows hext
  have htrain : train_and_predict env.fitModel rows
      = .ok (List.replicate rows.length 1, List.replicate rows.length 0) := by
    unfold train_and_predict
    rw [if_pos (by omega : rows.length < 10)]
  have hnorm : normalize_scores (List.replicate rows.length (0 : ℚ))
      = .ok (List.replicate rows.length ((1 : ℚ) / 2)) :=
    normalize_replicate_zero rows.length (by omega)
  have hmed : get_risk_level ((1 : ℚ) / 2) = "MEDIUM" := by
    norm_num [get_risk_level]
  unfold processAccount
  rw [hf]
  dsimp only
  rw [if_neg (by omega : ¬ txns.length < 5)]
  rw [hext]
  dsimp only
  rw [htrain]
  dsimp only
  rw [hnorm]
  dsimp only
  rw [hrl, processTxns_all_normal env acc.accountId txns rows st 0 hrl hur]
  dsimp only
  rw [hcf]
  simp only [hmed]

/-- Concrete evaluation: extracting the five fixture deposits yields
five identical rows [10, 12, 3, 90, 5] (balanceBefore 100 - 10 = 90,
velocity 5). -/
theorem extract_fiveTxns (a : String) :
    extract_features (fiveTxns a)
      = .ok [[10, 12, 3, 90, 5], [10, 12, 3, 90, 5], [10, 12, 3, 90, 5],
             [10, 12, 3, 90, 5], [10, 12, 3, 90, 5]] := by
  norm_num [extract_features, extract_features_go, fiveTxns, extract_row, mkTxn,
            balance_before, calculate_velocity, List.filter]
  decide

/-- In the partial-failure scenario, acc1 completes with 0 anomalies. -/
theorem failFetchEnv_acc1 : accountOutcome failFetchEnv ⟨"acc1"⟩ = .ok (some 0) := by
  have h := processAccount_small_batch failFetchEnv initState ⟨"acc1"⟩
    (fiveTxns "acc1")
    [[10, 12, 3, 90, 5], [10, 12, 3, 90, 5], [10, 12, 3, 90, 5],
     [10, 12, 3, 90, 5], [10, 12, 3, 90, 5]]
    (by simp [failFetchEnv]) (by simp [fiveTxns]) (by simp [fiveTxns])
    (extract_fiveTxns "acc1") (fun t ht => rfl) rfl
  unfold accountOutcome
  rw [h]

/-- In the partial-failure scenario, acc2's transaction fetch raises. -/
theorem failFetchEnv_acc2 : accountOutcome failFetchEnv ⟨"acc2"⟩ = .error "fetch failed" := by
  simp [accountOutcome, processAccount, failFetchEnv]

/-- In the partial-failure scenario, acc3 completes with 0 anomalies. -/
theorem failFetchEnv_acc3 : accountOutcome failFetchEnv ⟨"acc3"⟩ = .ok (some 0) := by
  have h := processAccount_small_batch failFetchEnv initState ⟨"acc3"⟩
    (fiveTxns "acc3")
    [[10, 12, 3, 90, 5], [10, 12, 3, 90, 5], [10, 12, 3, 90, 5],
     [10, 12, 3, 90, 5], [10, 12, 3, 90, 5]]
    (by simp [failFetchEnv]) (by simp [fiveTxns]) (by simp [fiveTxns])
    (extract_fiveTxns "acc3") (fun t ht => rfl) rfl
  unfold accountOutcome
  rw [h]

/-- Claim C6: an account whose fetched transaction set has fewer than
5 transactions gets its stale flag cleared, is skipped without any
scoring write (risk-update and anomaly logs unchanged), is excluded
from processedAccounts, and gets no AnomalyRecord. -/
theorem c6_insufficient_transactions (env : Env) (st : DBState) (acc : Account)
    (txns : List Transaction)
    (hf : env.get_account_transactions acc.accountId = .ok txns)
    (hlen : txns.length < 5)
    (hcf : env.clear_stale_flag_fault acc.accountId = none) :
    processAccount env st acc = (clearFlag st acc.accountId, .ok none)
    ∧ (processAccount env st acc).1.staleFlags acc.accountId = false
    ∧ (processAccount env st acc).1.riskUpdates = st.riskUpdates
    ∧ (processAccount env st acc).1.anomalies = st.anomalies
    ∧ isProcessed env acc = false := by
  have heq : processAccount env st acc = (clearFlag st acc.accountId, .ok none) := by
    unfold processAccount
    rw [hf]
    dsimp only
    rw [if_pos hlen, hcf]
  have hout : accountOutcome env acc = .ok none := by
    have h2 : accountOutcome env acc = (processAccount env st acc).2 :=
      processAccount_result_const env acc initState st
    rw [h2, heq]
  refine ⟨heq, ?_, ?_, ?_, ?_⟩
  · rw [heq]; simp [clearFlag]
  · rw [heq]; rfl
  · rw [heq]; rfl
  · simp [isProcessed, hout]

/-- Witness for C6: one stale account with a single transaction. -/
theorem c6_witness :
    processAccount oneTxnEnv initState ⟨"acc1"⟩ = (clearFlag initState "acc1", .ok none)
    ∧ isProcessed oneTxnEnv ⟨"acc1"⟩ = false := by
  have h := c6_insufficient_transactions oneTxnEnv initState ⟨"acc1"⟩
    [mkTxn "t1" "acc1"] rfl (by norm_num) rfl
  exact ⟨h.1, h.2.2.2.2⟩

/-- Claim C7: an account with 5 to 9 well-formed transactions and no
write faults gets all-NORMAL predictions (all 1) and all-zero raw
scores from the skipped fit, the degenerate normalizer branch makes
every normalized score 1/2, every transaction tiers to MEDIUM in the
persisted risk updates, and no anomaly record is persisted. -/
theorem c7_five_to_nine (env : Env) (st : DBState) (acc : Account)
    (txns : List Transaction) (rows : List (List ℚ))
    (hf : env.get_account_transactions acc.accountId = .ok txns)
    (h5 : 5 ≤ txns.length) (h9 : txns.length ≤ 9)
    (hext : extract_features txns = .ok rows)
    (hur : ∀ t ∈ txns, env.update_transaction_risk_fault t.transactionId = none)
    (hcf : env.clear_stale_flag_fault acc.accountId = none) :
    train_and_predict env.fitModel rows
        = .ok (List.replicate txns.length 1, List.replicate txns.length 0)
    ∧ normalize_scores (List.replicate txns.length (0 : ℚ))
        = .ok (List.replicate txns.length ((1 : ℚ) / 2))
    ∧ get_risk_level ((1 : ℚ) / 2) = "MEDIUM"
    ∧ (processAccount env st acc).2 = .ok (some 0)
    ∧ (processAccount env st acc).1.anomalies = st.anomalies
    ∧ (processAccount env st acc).1.riskUpdates
        = st.riskUpdates
          ++ txns.map (fun t => ⟨t.transactionId, 1 / 2, "MEDIUM", false⟩) := by
  have hrl : rows.length = txns.length := extract_features_length txns rows hext
  have hsb := processAccount_small_batch env st acc txns rows hf h5 h9 hext hur hcf
  refine ⟨?_, normalize_replicate_zero txns.length (by omega),
         by norm_num [get_risk_level], ?_, ?_, ?_⟩
  · unfold train_and_predict
    rw [if_pos (by omega : rows.length < 10), hrl]
  · rw [hsb]
  · rw [hsb]; rfl
  · rw [hsb]; rfl

/-- Witness for C7: one stale account with five transactions. -/
theorem c7_witness :
    (processAccount fiveTxnEnv initState ⟨"acc1"⟩).2 = .ok (some 0)
    ∧ (processAccount fiveTxnEnv initState ⟨"acc1"⟩).1.anomalies = [] := by
  have h := c7_five_to_nine fiveTxnEnv initState ⟨"acc1"⟩ (fiveTxns "acc1")
    [[10, 12, 3, 90, 5], [10, 12, 3, 90, 5], [10, 12, 3, 90, 5],
     [10, 12, 3, 90, 5], [10, 12, 3, 90, 5]]
    rfl (by simp [fiveTxns]) (by simp [fiveTxns])
    (extract_fiveTxns "acc1") (fun t ht => rfl) rfl
  exact ⟨h.2.2.2.1, (h.2.2.2.2.1).trans rfl⟩

/-- Claim C1: per-account failure isolation.  The final
processedAccounts counts exactly the accounts whose own processing
completed fully, totalAnomalies sums exactly the completed accounts'
anomaly counts (a failing account contributes nothing to either), and
a failing account's stale flag is untouched by the whole loop (it
remains set), while every other account is still processed and
counted. -/
theorem c1_failure_isolation (env : Env) (accounts : List Account) (st : DBState) :
    (processLoop env accounts st 0 0).2.1
        = (accounts.filter (fun a => isProcessed env a)).length
    ∧ (processLoop env accounts st 0 0).2.2
        = (accounts.map (fun a => anomCount env a)).sum
    ∧ ∀ b ∈ accounts, outcomeOk env b = false →
        (∀ a ∈ accounts, a.accountId = b.accountId → outcomeOk env a = false) →
        (processLoop env accounts st 0 0).1.staleFlags b.accountId
          = st.staleFlags b.accountId := by
  refine ⟨?_, ?_, ?_⟩
  · have h := (processLoop_counts env accounts st 0 0).1
    simpa using h
  · have h := (processLoop_counts env accounts st 0 0).2
    simpa using h
  · intro b hb hfail hall
    exact processLoop_flags_untouched env accounts st 0 0 b.accountId hall

/-- Witness for C1: three stale accounts where acc2's fetch raises;
acc1 and acc3 are still processed (processedAccounts = 2, zero
anomalies) and acc2's flag remains set. -/
theorem c1_witness :
    (processLoop failFetchEnv threeAccounts initState 0 0).2.1 = 2
    ∧ (processLoop failFetchEnv threeAccounts initState 0 0).2.2 = 0
    ∧ (processLoop failFetchEnv threeAccounts initState 0 0).1.staleFlags "acc2"
        = true := by
  have h := c1_failure_isolation failFetchEnv threeAccounts initState
  have hp1 : isProcessed failFetchEnv ⟨"acc1"⟩ = true := by
    simp [isProcessed, failFetchEnv_acc1]
  have hp2 : isProcessed failFetchEnv ⟨"acc2"⟩ = false := by
    simp [isProcessed, failFetchEnv_acc2]
  have hp3 : isProcessed failFetchEnv ⟨"acc3"⟩ = true := by
    simp [isProcessed, failFetchEnv_acc3]
  have ha1 : anomCount failFetchEnv ⟨"acc1"⟩ = 0 := by
    simp [anomCount, failFetchEnv_acc1]
  have ha2 : anomCount failFetchEnv ⟨"acc2"⟩ = 0 := by
    simp [anomCount, failFetchEnv_acc2]
  have ha3 : anomCount failFetchEnv ⟨"acc3"⟩ = 0 := by
    simp [anomCount, failFetchEnv_acc3]
  have hall : ∀ a ∈ threeAccounts, a.accountId = Account.accountId ⟨"acc2"⟩ →
      outcomeOk failFetchEnv a = false := by
    intro a ha hx
    simp only [threeAccounts, List.mem_cons, List.not_mem_nil, or_false] at ha
    rcases ha with h1 | h1 | h1 <;> subst h1
    · exact absurd hx (by decide)
    · simp [outcomeOk, failFetchEnv_acc2]
    · exact absurd hx (by decide)
  refine ⟨h.1.trans ?_, h.2.1.trans ?_, ?_⟩
  · simp [threeAccounts, List.filter, hp1, hp2, hp3]
  · simp [threeAccounts, ha1, ha2, ha3]
  · have hfail : outcomeOk failFetchEnv ⟨"acc2"⟩ = false := by
      simp [outcomeOk, failFetchEnv_acc2]
    have := h.2.2 ⟨"acc2"⟩ (by simp [threeAccounts]) hfail hall
    exact this.trans rfl

/-- Counterexample for claim C8 as stated: in the three-account run
where acc2's fetch raises, the batch is not aborted (the run returns a
completed result), yet acc2 exits the pass with its stale flag still
set — so an account that entered the pass did not exit with its marker
cleared. -/
theorem c8_counterexample :
    (process_anomaly_detection failFetchEnv eventDefault initState).2
        = .ok ⟨200, "Anomaly detection completed", some 2, some 0⟩
    ∧ (process_anomaly_detection failFetchEnv eventDefault initState).1.staleFlags "acc2"
        = true := by
  have hproc : process_anomaly_detection failFetchEnv eventDefault initState
      = ((processLoop failFetchEnv threeAccounts initState 0 0).1,
         .ok ⟨200, "Anomaly detection completed",
              some (processLoop failFetchEnv threeAccounts initState 0 0).2.1,
              some (processLoop failFetchEnv threeAccounts initState 0 0).2.2⟩) := by
    unfold process_anomaly_detection
    rfl
  have hp1 : isProcessed failFetchEnv ⟨"acc1"⟩ = true := by
    simp [isProcessed, failFetchEnv_acc1]
  have hp2 : isProcessed failFetchEnv ⟨"acc2"⟩ = false := by
    simp [isProcessed, failFetchEnv_acc2]
  have hp3 : isProcessed failFetchEnv ⟨"acc3"⟩ = true := by
    simp [isProcessed, failFetchEnv_acc3]
  have ha1 : anomCount failFetchEnv ⟨"acc1"⟩ = 0 := by
    simp [anomCount, failFetchEnv_acc1]
  have ha2 : anomCount failFetchEnv ⟨"acc2"⟩ = 0 := by
    simp [anomCount, failFetchEnv_acc2]
  have ha3 : anomCount failFetchEnv ⟨"acc3"⟩ = 0 := by
    simp [anomCount, failFetchEnv_acc3]
  have hcount := processLoop_counts failFetchEnv threeAccounts initState 0 0
  have h1 : (processLoop failFetchEnv threeAccounts initState 0 0).2.1 = 2 := by
    rw [hcount.1]
    simp [threeAccounts, List.filter, hp1, hp2, hp3]
  have h2 : (processLoop failFetchEnv threeAccounts initState 0 0).2.2 = 0 := by
    rw [hcount.2]
    simp [threeAccounts, ha1, ha2, ha3]
  constructor
  · rw [hproc]
    dsimp only
    rw [h1, h2]
  · rw [hproc]
    dsimp only
    have hall : ∀ a ∈ threeAccounts, a.accountId = "acc2" →
        outcomeOk failFetchEnv a = false := by
      intro a ha hx
      simp only [threeAccounts, List.mem_cons, List.not_mem_nil, or_false] at ha
      rcases ha with hA | hA | hA <;> subst hA
      · exact absurd hx (by decide)
      · simp [outcomeOk, failFetchEnv_acc2]
      · exact absurd hx (by decide)
    exact (processLoop_flags_untouched failFetchEnv threeAccounts initState 0 0
      "acc2" hall).trans rfl

/-- Claim C8, amended: every account whose own processing completes
without raising exits the batch pass with its marker cleared; an
account whose processing raises (and that is not retried under the
same accountId later in the batch) exits with its marker unchanged —
still set — rather than cleared; a hard pre-loop error aborts the
batch with all markers untouched. -/
theorem c8_marker_invariant (env : Env) (accounts : List Account) (st : DBState) :
    (∀ a ∈ accounts, outcomeOk env a = true →
        (processLoop env accounts st 0 0).1.staleFlags a.accountId = false)
    ∧ (∀ b ∈ accounts,
        (∀ a ∈ accounts, a.accountId = b.accountId → outcomeOk env a = false) →
        (processLoop env accounts st 0 0).1.staleFlags b.accountId
          = st.staleFlags b.accountId) := by
  constructor
  · intro a ha hok
    exact processLoop_flags_cleared env accounts st 0 0 a ha hok
  · intro b hb hall
    exact processLoop_flags_untouched env accounts st 0 0 b.accountId hall

/-- Witness for the amended C8: in the partial-failure scenario, the
successful acc1 exits cleared while the failing acc2 stays set. -/
theorem c8_witness :
    (processLoop failFetchEnv threeAccounts initState 0 0).1.staleFlags "acc1" = false
    ∧ (processLoop failFetchEnv threeAccounts initState 0 0).1.staleFlags "acc2"
        = true := by
  have h := c8_marker_invariant failFetchEnv threeAccounts initState
  have hok1 : outcomeOk failFetchEnv ⟨"acc1"⟩ = true := by
    simp [outcomeOk, failFetchEnv_acc1]
  have hall : ∀ a ∈ threeAccounts, a.accountId = Account.accountId ⟨"acc2"⟩ →
      outcomeOk failFetchEnv a = false := by
    intro a ha hx
    simp only [threeAccounts, List.mem_cons, List.not_mem_nil, or_false] at ha
    rcases ha with hA | hA | hA <;> subst hA
    · exact absurd hx (by decide)
    · simp [outcomeOk, failFetchEnv_acc2]
    · exact absurd hx (by decide)
  exact ⟨h.1 ⟨"acc1"⟩ (by simp [threeAccounts]) hok1,
         (h.2 ⟨"acc2"⟩ (by simp [threeAccounts]) hall).trans rfl⟩

/-- Claim C9: a missing-configuration error or a raise while
enumerating the stale accounts aborts the whole run before any
account is touched: `process_anomaly_detection` re-raises the error
itself, the storage state is returned unchanged, and no success
result is produced in its place. -/
theorem c9_batch_abort (env : Env) (event : Event) (st : DBState) :
    (∀ e, env.initConfig = .error e →
        process_anomaly_detection env event st = (st, .error e))
    ∧ (∀ e, env.initConfig = .ok () →
        Event.processStaleAccounts event = true →
        env.get_stale_accounts = .error e →
        process_anomaly_detection env event st = (st, .error e)) := by
  constructor
  · intro e he
    unfold process_anomaly_detection
    rw [he]
  · intro e hc hp hg
    unfold process_anomaly_detection
    rw [hc]
    dsimp only
    rw [if_neg (by simp [hp]), hg]

/-- Witness for C9: a missing-config run and a failing-scan run both
propagate their error with the state unchanged. -/
theorem c9_witness :
    process_anomaly_detection badConfigEnv eventDefault initState
        = (initState,
           .error "Missing required environment variables for DynamoDB table names")
    ∧ process_anomaly_detection badScanEnv eventDefault initState
        = (initState, .error "scan failed") :=
  ⟨(c9_batch_abort badConfigEnv eventDefault initState).1 _ rfl,
   (c9_batch_abort badScanEnv eventDefault initState).2 _ rfl rfl rfl⟩

/-- Claim C10: when the event's detail disables stale-account
processing (and configuration is present, which the handler checks
first), the run returns the skip result and the storage state is
returned unchanged — for every environment, including ones whose
account scan, transaction reads, and writes would all raise, so no
enumeration, read, or write can have occurred. -/
theorem c10_skip_frame (env : Env) (st : DBState) (event : Event)
    (hc : env.initConfig = .ok ())
    (hp : Event.processStaleAccounts event = false) :
    process_anomaly_detection env event st
      = (st, .ok ⟨200, "Processing skipped", none, none⟩) := by
  unfold process_anomaly_detection
  rw [hc]
  dsimp only
  rw [if_pos hp]

/-- Witness for C10: the skip applies even over the all-raising
environment, leaving the state untouched. -/
theorem c10_witness :
    process_anomaly_detection badScanEnv eventDisabled initState
      = (initState, .ok ⟨200, "Processing skipped", none, none⟩) :=
  c10_skip_frame badScanEnv initState eventDisabled rfl rfl

end MLAnomaly
